import Mathlib

/-!
Verification of the quotation/invoicing application against its
specification.

Shallow-embedding conventions used throughout this file:

* JavaScript numbers are modelled by the rationals `ℚ` (ideal arithmetic;
  the spec states its numeric identities up to floating-point tolerance,
  which the rational model realises exactly).  A value that is `NaN` or
  absent is modelled by `none : Option ℚ`.
* Form line items carry their fields as raw strings, exactly as the React
  components keep them in state; stored JSON line items are modelled by the
  same string-field record (a JSON number corresponds to its decimal
  rendering, on which `parseFloat` is the identity).
* `parseFloat` is modelled on the plain decimal fragment it is applied to
  in this code base: optional leading spaces, optional sign, digits with an
  optional fractional part; any trailing garbage is ignored, and an input
  with no leading digits yields `none` (JS `NaN`).  Exponent notation never
  occurs in this application and is not modelled.
* The JS idiom `x || d` (default on falsy values) is modelled by `jsOrQ` /
  `jsOrStr`, which substitute the default for `none` and for the falsy
  values `0` / `""`.
* A JS object used as a dictionary is modelled by an insertion-ordered
  association list; `Object.entries` enumeration is modelled by
  `jsEntries`, which implements the ECMAScript own-property order: keys
  that are array indices (canonical decimal integers below 2^32 - 1) come
  first in ascending numeric order, followed by the remaining string keys
  in insertion order.
-/

/-- A line item as kept in the React form state (QuotationForm / InvoiceForm):
every field is a string. -/
structure LineItem where
  id : String := ""
  description : String := ""
  unitPrice : String := ""
  quantity : String := ""
  vatPercentage : String := ""
deriving DecidableEq

/-- Character test for the decimal digits, used by the `parseFloat` model. -/
def isDigitCh (c : Char) : Bool :=
  48 ≤ c.toNat && c.toNat ≤ 57

/-- Numeric value of a list of decimal digit characters. -/
def digitsVal (cs : List Char) : Nat :=
  cs.foldl (fun a c => a * 10 + (c.toNat - 48)) 0

/-- Model of JavaScript `parseFloat` on the decimal fragment (see header):
returns `none` for `NaN`. -/
def parseFloatQ (s : String) : Option ℚ :=
  let cs := s.data.dropWhile (fun c => c = ' ')
  let sgn : ℚ := match cs.head? with
    | some c => if c = '-' then -1 else 1
    | none => 1
  let cs := match cs with
    | c :: t => if c = '-' ∨ c = '+' then t else c :: t
    | [] => []
  let intPart := cs.takeWhile isDigitCh
  let rest := cs.dropWhile isDigitCh
  let fracPart := match rest with
    | c :: t => if c = '.' then t.takeWhile isDigitCh else []
    | [] => []
  if intPart = [] ∧ fracPart = [] then none
  else some (sgn * ((digitsVal intPart : ℚ) +
    (digitsVal fracPart : ℚ) / (10 ^ fracPart.length)))

/-- JS `x || d` on numbers: the default replaces `NaN` (`none`) and `0`. -/
def jsOrQ (v : Option ℚ) (d : ℚ) : ℚ :=
  match v with
  | none => d
  | some x => if x = 0 then d else x

/-- JS `s || d` on strings: the default replaces an absent and the empty
string. -/
def jsOrStr (v : Option String) (d : String) : String :=
  match v with
  | none => d
  | some s => if s = "" then d else s

/-- `getLineItemTotal` from QuotationForm.tsx / InvoiceForm:
`(parseFloat(item.unitPrice) || 0) * (parseFloat(item.quantity) || 0)`. -/
def getLineItemTotal (item : LineItem) : ℚ :=
  jsOrQ (parseFloatQ item.unitPrice) 0 * jsOrQ (parseFloatQ item.quantity) 0

/-- `getLineItemVat` from QuotationForm.tsx / InvoiceForm:
`total * (parseFloat(item.vatPercentage) || 0) / 100`. -/
def getLineItemVat (item : LineItem) : ℚ :=
  getLineItemTotal item * jsOrQ (parseFloatQ item.vatPercentage) 0 / 100

/-- `getSubtotal`: `lineItems.reduce((sum, item) => sum + total(item), 0)`. -/
def getSubtotal (items : List LineItem) : ℚ :=
  items.foldl (fun sum item => sum + getLineItemTotal item) 0

/-- `getTotalVat`: `lineItems.reduce((sum, item) => sum + vat(item), 0)`. -/
def getTotalVat (items : List LineItem) : ℚ :=
  items.foldl (fun sum item => sum + getLineItemVat item) 0

/-- `getGrandTotal`: `getSubtotal() + getTotalVat()`. -/
def getGrandTotal (items : List LineItem) : ℚ :=
  getSubtotal items + getTotalVat items

/-- One step of building the `vatMap` object:
`if (!vatMap[k]) vatMap[k] = 0; vatMap[k] += v`.  An existing key keeps its
position; a new key is appended (JS insertion order). -/
def vatMapAdd : List (String × ℚ) → String → ℚ → List (String × ℚ)
  | [], k, v => [(k, v)]
  | (k1, v1) :: t, k, v =>
    if k1 = k then (k1, v1 + v) :: t else (k1, v1) :: vatMapAdd t k v

/-- `getVatTotals` from QuotationForm.tsx / InvoiceForm: a dictionary object
keyed by the raw `item.vatPercentage` string, accumulating
`getLineItemVat`. -/
def getVatTotals (items : List LineItem) : List (String × ℚ) :=
  items.foldl (fun m item => vatMapAdd m item.vatPercentage (getLineItemVat item)) []

/-- Sum of the values of a vat dictionary (`Object.values(...).reduce(+)`). -/
def sumValues (m : List (String × ℚ)) : ℚ :=
  (m.map Prod.snd).sum

/-- Dictionary lookup (`vatMap[k]`, `undefined` as `none`). -/
def listLookup (r : String) : List (String × ℚ) → Option ℚ
  | [] => none
  | (k, v) :: t => if k = r then some v else listLookup r t

/-- An ECMAScript array-index property key: the canonical decimal rendering
of an integer `n` with `0 ≤ n < 2^32 - 1` (no leading zeros except `"0"`). -/
def canonIndex (s : String) : Option Nat :=
  let cs := s.data
  if cs ≠ [] ∧ cs.all isDigitCh ∧ (cs.head? ≠ some '0' ∨ cs = ['0']) then
    if digitsVal cs < 4294967295 then some (digitsVal cs) else none
  else none

/-- Sort key used when enumerating array-index properties. -/
def keyNum (p : String × ℚ) : Nat :=
  (canonIndex p.1).getD 0

/-- Ascending insertion of one entry by numeric key (stable). -/
def insNum (x : String × ℚ) : List (String × ℚ) → List (String × ℚ)
  | [] => [x]
  | y :: t => if keyNum x < keyNum y then x :: y :: t else y :: insNum x t

/-- Insertion sort by numeric key. -/
def sortNum (l : List (String × ℚ)) : List (String × ℚ) :=
  l.foldr insNum []

/-- ECMAScript own-property enumeration order (`Object.entries`,
`Object.keys`, ...): array-index keys in ascending numeric order first,
then the remaining keys in insertion order. -/
def jsEntries (m : List (String × ℚ)) : List (String × ℚ) :=
  sortNum (m.filter (fun p => (canonIndex p.1).isSome)) ++
    m.filter (fun p => !(canonIndex p.1).isSome)

/-- Line-item total as computed inline by the PDF exporter
(QuotationDetail `exportToPDF`):
`(parseFloat(item.unitPrice) || 0) * (parseFloat(item.quantity) || 1)`. -/
def pdfItemTotal (item : LineItem) : ℚ :=
  jsOrQ (parseFloatQ item.unitPrice) 0 * jsOrQ (parseFloatQ item.quantity) 1

/-- The spec-side line-total operation, for refinement comparison only.
Modelled from the spec: "unit price × quantity; constraint: treat
missing/non-numeric quantity as 1, missing/non-numeric price as 0". -/
def lineTotalSpec (item : LineItem) : ℚ :=
  (parseFloatQ item.unitPrice).getD 0 * (parseFloatQ item.quantity).getD 1

/-- Sum of the VAT amounts of the items carrying a given rate string. -/
def vatSum (r : String) (items : List LineItem) : ℚ :=
  ((items.filter (fun i => i.vatPercentage = r)).map getLineItemVat).sum

/-- Order of first occurrence of the elements of a list (JS object key
insertion order for keys inserted while walking the list). -/
def firstOccurrences (l : List String) : List String :=
  l.foldl (fun acc k => if k ∈ acc then acc else acc ++ [k]) []

/-! Decimal rendering of numbers, as produced by JS template literals and
`String(n)` for the integers used in sequence numbers. -/

/-- Decimal digit character for a value below ten. -/
def digitCh (d : Nat) : Char :=
  Char.ofNat (48 + d)

/-- Fuel-driven decimal rendering of a positive number (most significant
digit first); `fuel ≥ n` guarantees completion. -/
def decCharsAux : Nat → Nat → List Char
  | 0, _ => []
  | fuel + 1, n =>
    if n = 0 then [] else decCharsAux fuel (n / 10) ++ [digitCh (n % 10)]

/-- Decimal rendering of a natural number, as JS renders an integer. -/
def decChars (n : Nat) : List Char :=
  if n = 0 then ['0'] else decCharsAux (n + 1) n

/-- Decimal string of a natural number. -/
def decStr (n : Nat) : String :=
  String.mk (decChars n)

/-- JS `String(n).padStart(4, '0')` on the character list: left-pad with
zeros up to length four (longer inputs are returned unchanged). -/
def padStart4 (l : List Char) : List Char :=
  List.replicate (4 - l.length) '0' ++ l

/-- Quotation sequence number: backtick template `OFF-${timestamp}` in the
create-quotation handler. -/
def quotationNumberGen (timestamp : Nat) : String :=
  "OFF-" ++ decStr timestamp

/-- Invoice sequence number, from the create-invoice and convert handlers:
`FAC-${year}-${String(count + 1).padStart(4, "0")}` where `count` is the
number of invoices currently stored for the user. -/
def invoiceNumberGen (year count : Nat) : String :=
  "FAC-" ++ decStr year ++ "-" ++ String.mk (padStart4 (decChars (count + 1)))

/-- Recogniser for the spec pattern `OFF-<digits>` (at least one digit). -/
def matchesOFF (s : String) : Bool :=
  match s.data with
  | 'O' :: 'F' :: 'F' :: '-' :: rest => !rest.isEmpty && rest.all isDigitCh
  | _ => false

/-- Recogniser for the spec pattern
`FAC-<4-digit year>-<4-digit zero-padded counter>` (both fields exactly
four digits). -/
def matchesFAC (s : String) : Bool :=
  match s.data with
  | 'F' :: 'A' :: 'C' :: '-' :: y1 :: y2 :: y3 :: y4 :: m :: c1 :: c2 :: c3 :: c4 :: [] =>
    m = '-' && [y1, y2, y3, y4, c1, c2, c3, c4].all isDigitCh
  | _ => false

/-!
Server-side model (the Hono app with base path `/server`, plus the
historical variant in `src/supabase/functions/server/index.tsx`).

Embedding conventions for this part:

* ISO date strings are represented by their epoch-millisecond value
  (`Int`); the ISO rendering is injective, so equality and order of the
  represented dates coincide with equality and order of the strings the
  code stores and compares.
* The string keys of the key-value store (`user:<uid>`,
  `quotation:<uid>:<id>`, `invoice:<uid>:<id>`) are represented by the
  structured type `Key`; the rendering into strings is injective, and the
  `getByPrefix` scans used by the code correspond to the per-constructor,
  per-user filters below.
* Stored JSON records are represented by typed records; a field a handler
  may leave absent (`undefined` / `null`) has an `Option` type.  Stored
  line items are carried verbatim by the handlers, so they reuse
  `LineItem`.
* Each handler returns its HTTP status, the JSON payload values of the
  response, and the list of `kv.set` / `kv.del` effects it executed, in
  order.  The store resulting from a handler is `applyOps` of that list.
-/

/-- Structured rendering of the store keys. -/
inductive Key where
  | userK (uid : String)
  | quotK (uid : String) (id : String)
  | invK (uid : String) (id : String)
deriving DecidableEq

/-- Stored user profile (shape written at signup; profile updates merge
into it field by field). -/
structure ProfileRec where
  userId : String := ""
  email : Option String := none
  name : Option String := none
  companyName : Option String := none
  address : Option String := none
  phone : Option String := none
  kvkNumber : Option String := none
  vatNumber : Option String := none
  createdAt : Int := 0
  updatedAt : Option Int := none
deriving DecidableEq

/-- Stored quotation record (shape written by the create handler; the
legacy variant stores no quotation number, hence the `Option`). -/
structure QuotationRec where
  id : String := ""
  quotationNumber : Option String := none
  userId : String := ""
  clientName : Option String := none
  clientAddress : Option String := none
  description : Option String := none
  price : Option ℚ := none
  vatPercentage : Option ℚ := none
  status : String := "draft"
  date : Int := 0
  lineItems : Option (List LineItem) := none
  invoiceId : Option String := none
  createdAt : Int := 0
  updatedAt : Int := 0
deriving DecidableEq

/-- Stored invoice record. -/
structure InvoiceRec where
  id : String := ""
  invoiceNumber : String := ""
  userId : String := ""
  clientName : Option String := none
  clientAddress : Option String := none
  description : Option String := none
  price : Option ℚ := none
  vatPercentage : Option ℚ := none
  lineItems : List LineItem := []
  status : String := "draft"
  date : Int := 0
  dueDate : Option Int := none
  paidDate : Option Int := none
  quotationId : Option String := none
  quotationNumber : Option String := none
  paymentTermDays : ℚ := 30
  notes : String := ""
  createdAt : Int := 0
  updatedAt : Int := 0
deriving DecidableEq

/-- A value in the key-value store. -/
inductive KvValue where
  | pv (p : ProfileRec)
  | qv (q : QuotationRec)
  | iv (i : InvoiceRec)
deriving DecidableEq

/-- One storage effect. -/
inductive KvOp where
  | setOp (k : Key) (v : KvValue)
  | delOp (k : Key)
deriving DecidableEq

/-- The key-value store, as an association list. -/
def Store := List (Key × KvValue)

/-- `kv.get`. -/
def kvGet : Store → Key → Option KvValue
  | [], _ => none
  | (k, v) :: t, key => if k = key then some v else kvGet t key

/-- `kv.set` (replace in place, else append). -/
def kvSet : Store → Key → KvValue → Store
  | [], k, v => [(k, v)]
  | (k1, v1) :: t, k, v =>
    if k1 = k then (k, v) :: t else (k1, v1) :: kvSet t k v

/-- `kv.del`. -/
def kvDel (s : Store) (k : Key) : Store :=
  s.filter (fun p => p.1 ≠ k)

/-- Whether a key is an invoice key of the given user (membership in the
`invoice:<uid>:` prefix scan). -/
def isInvKeyOf (uid : String) : Key → Bool
  | .invK u _ => u = uid
  | _ => false

/-- Whether a key is a quotation key of the given user. -/
def isQuotKeyOf (uid : String) : Key → Bool
  | .quotK u _ => u = uid
  | _ => false

/-- `kv.getByPrefix("invoice:<uid>:")`, values only. -/
def invoicesByUser (uid : String) (s : Store) : List KvValue :=
  (s.filter (fun p => isInvKeyOf uid p.1)).map Prod.snd

/-- `kv.getByPrefix("quotation:<uid>:")`, values only. -/
def quotationsByUser (uid : String) (s : Store) : List KvValue :=
  (s.filter (fun p => isQuotKeyOf uid p.1)).map Prod.snd

/-- Apply an effect list to a store, in order. -/
def applyOps (s : Store) : List KvOp → Store
  | [] => s
  | .setOp k v :: rest => applyOps (kvSet s k v) rest
  | .delOp k :: rest => applyOps (kvDel s k) rest

/-- The fields a JSON request body may carry (absent fields are `none`).
One shape serves every endpoint; handlers read only the fields they use. -/
structure ReqBody where
  clientName : Option String := none
  clientAddress : Option String := none
  description : Option String := none
  price : Option ℚ := none
  vatPercentage : Option ℚ := none
  lineItems : Option (List LineItem) := none
  status : Option String := none
  date : Option Int := none
  dueDate : Option Int := none
  paidDate : Option Int := none
  quotationId : Option String := none
  quotationNumber : Option String := none
  invoiceNumber : Option String := none
  invoiceId : Option String := none
  paymentTermDays : Option ℚ := none
  notes : Option String := none
  id : Option String := none
  userId : Option String := none
  createdAt : Option Int := none
  updatedAt : Option Int := none
  email : Option String := none
  name : Option String := none
  companyName : Option String := none
  address : Option String := none
  phone : Option String := none
  kvkNumber : Option String := none
  vatNumber : Option String := none
deriving DecidableEq

/-- An incoming HTTP request: `Authorization` header, `:id` route
parameter, `userId` query parameter (legacy variant only) and JSON body. -/
structure Request where
  auth : Option String := none
  paramId : String := ""
  queryUserId : Option String := none
  body : ReqBody := {}

/-- Ambient request context: the token verifier of the identity provider,
the current time (epoch ms), the current year, and the value
`crypto.randomUUID()` would produce. -/
structure Ctx where
  verify : String → Option String
  now : Int := 0
  year : Nat := 2025
  uuid : String := ""

/-- A handler outcome: HTTP status, response payload values, storage
effects in execution order. -/
structure HOut where
  status : Nat
  resp : List KvValue := []
  ops : List KvOp := []
deriving DecidableEq

/-- Removal of the first occurrence of a pattern from a character list
(JS `String.prototype.replace` with a string pattern and empty
replacement). -/
def replaceFirstL (pat : List Char) : List Char → List Char
  | [] => []
  | c :: t =>
    if pat.isPrefixOf (c :: t) then (c :: t).drop pat.length
    else c :: replaceFirstL pat t

/-- `header.replace("Bearer ", "")`. -/
def stripBearer (h : String) : String :=
  String.mk (replaceFirstL "Bearer ".data h.data)

/-- `getUserFromToken`: no header yields no user; otherwise the token is
the header with the first `"Bearer "` removed, resolved by the identity
provider. -/
def getUserFromToken (verify : String → Option String) : Option String → Option String
  | none => none
  | some h => verify (stripBearer h)

/-- Timestamp rendered as the JS template literal renders `Date.now()`. -/
def tsStr (t : Int) : String :=
  decStr t.toNat

/-- The quotation object built by `POST /quotations` (main server): an
explicit field list that does not include `lineItems`. -/
def createQuotationRec (uid : String) (ctx : Ctx) (b : ReqBody) : QuotationRec :=
  { id := tsStr ctx.now
    quotationNumber := some (quotationNumberGen ctx.now.toNat)
    userId := uid
    clientName := b.clientName
    clientAddress := b.clientAddress
    description := b.description
    price := b.price
    vatPercentage := b.vatPercentage
    status := jsOrStr b.status "draft"
    date := b.date.getD ctx.now
    lineItems := none
    invoiceId := none
    createdAt := ctx.now
    updatedAt := ctx.now }

/-- The invoice object built by `POST /invoices` (main server); `count` is
the number of invoices the prefix scan returned. -/
def createInvoiceRec (uid : String) (ctx : Ctx) (b : ReqBody) (count : Nat) : InvoiceRec :=
  { id := tsStr ctx.now
    invoiceNumber := invoiceNumberGen ctx.year count
    userId := uid
    clientName := b.clientName
    clientAddress := b.clientAddress
    description := b.description
    price := b.price
    vatPercentage := b.vatPercentage
    lineItems := b.lineItems.getD []
    status := jsOrStr b.status "draft"
    date := b.date.getD ctx.now
    dueDate := b.dueDate
    paidDate := b.paidDate
    quotationId := b.quotationId
    quotationNumber := b.quotationNumber
    paymentTermDays := jsOrQ b.paymentTermDays 30
    notes := b.notes.getD ""
    createdAt := ctx.now
    updatedAt := ctx.now }

/-- The invoice object built by `POST /quotations/:id/convert-to-invoice`
from the stored quotation `q`; `count` is the number of invoices the
prefix scan returned.  The due date is `new Date()` advanced by 30 days
(the edge runtime works in UTC, so exactly 30 · 86400000 ms). -/
def convInvoiceRec (uid : String) (ctx : Ctx) (q : QuotationRec) (count : Nat) : InvoiceRec :=
  { id := tsStr ctx.now
    invoiceNumber := invoiceNumberGen ctx.year count
    userId := uid
    clientName := q.clientName
    clientAddress := q.clientAddress
    description := q.description
    price := q.price
    vatPercentage := q.vatPercentage
    lineItems := q.lineItems.getD []
    status := "sent"
    date := ctx.now
    dueDate := some (ctx.now + 30 * 86400000)
    paidDate := none
    quotationId := some q.id
    quotationNumber := q.quotationNumber
    paymentTermDays := 30
    notes := ""
    createdAt := ctx.now
    updatedAt := ctx.now }

/-- The merge performed by `PUT /quotations/:id` (main server):
`{...current, ...updates, userId, id, quotationNumber, updatedAt}` — the
last four fields override whatever the payload supplied. -/
def updateQuotationRec (uid : String) (cur : QuotationRec) (u : ReqBody) (now : Int) :
    QuotationRec :=
  { id := cur.id
    quotationNumber := cur.quotationNumber
    userId := uid
    clientName := u.clientName.or cur.clientName
    clientAddress := u.clientAddress.or cur.clientAddress
    description := u.description.or cur.description
    price := u.price.or cur.price
    vatPercentage := u.vatPercentage.or cur.vatPercentage
    status := u.status.getD cur.status
    date := u.date.getD cur.date
    lineItems := u.lineItems.or cur.lineItems
    invoiceId := u.invoiceId.or cur.invoiceId
    createdAt := u.createdAt.getD cur.createdAt
    updatedAt := now }

/-- The merge performed by `PUT /invoices/:id` (main server). -/
def updateInvoiceRec (uid : String) (cur : InvoiceRec) (u : ReqBody) (now : Int) :
    InvoiceRec :=
  { id := cur.id
    invoiceNumber := cur.invoiceNumber
    userId := uid
    clientName := u.clientName.or cur.clientName
    clientAddress := u.clientAddress.or cur.clientAddress
    description := u.description.or cur.description
    price := u.price.or cur.price
    vatPercentage := u.vatPercentage.or cur.vatPercentage
    lineItems := u.lineItems.getD cur.lineItems
    status := u.status.getD cur.status
    date := u.date.getD cur.date
    dueDate := u.dueDate.or cur.dueDate
    paidDate := u.paidDate.or cur.paidDate
    quotationId := u.quotationId.or cur.quotationId
    quotationNumber := u.quotationNumber.or cur.quotationNumber
    paymentTermDays := u.paymentTermDays.getD cur.paymentTermDays
    notes := u.notes.getD cur.notes
    createdAt := u.createdAt.getD cur.createdAt
    updatedAt := now }

/-- The merge performed by `PUT /profile` (a missing current profile is the
empty object, so its fields stay absent unless the payload sets them). -/
def mergeProfileRec (uid : String) (cur : Option ProfileRec) (u : ReqBody) (now : Int) :
    ProfileRec :=
  let c := cur.getD {}
  { userId := uid
    email := u.email.or c.email
    name := u.name.or c.name
    companyName := u.companyName.or c.companyName
    address := u.address.or c.address
    phone := u.phone.or c.phone
    kvkNumber := u.kvkNumber.or c.kvkNumber
    vatNumber := u.vatNumber.or c.vatNumber
    createdAt := (u.createdAt.getD c.createdAt)
    updatedAt := some now }

/-- `GET /profile`. -/
def profileGetH (ctx : Ctx) (req : Request) (store : Store) : HOut :=
  match getUserFromToken ctx.verify req.auth with
  | none => { status := 401 }
  | some uid =>
    match kvGet store (.userK uid) with
    | some (.pv p) => { status := 200, resp := [.pv p] }
    | _ => { status := 404 }

/-- `PUT /profile`. -/
def profilePutH (ctx : Ctx) (req : Request) (store : Store) : HOut :=
  match getUserFromToken ctx.verify req.auth with
  | none => { status := 401 }
  | some uid =>
    let cur : Option ProfileRec :=
      match kvGet store (.userK uid) with
      | some (.pv p) => some p
      | _ => none
    let merged := mergeProfileRec uid cur req.body ctx.now
    { status := 200, resp := [.pv merged], ops := [.setOp (.userK uid) (.pv merged)] }

/-- `POST /quotations` (main server). -/
def quotationsPostH (ctx : Ctx) (req : Request) (_store : Store) : HOut :=
  match getUserFromToken ctx.verify req.auth with
  | none => { status := 401 }
  | some uid =>
    let q := createQuotationRec uid ctx req.body
    { status := 200, resp := [.qv q], ops := [.setOp (.quotK uid q.id) (.qv q)] }

/-- `GET /quotations` (main server). -/
def quotationsGetH (ctx : Ctx) (req : Request) (store : Store) : HOut :=
  match getUserFromToken ctx.verify req.auth with
  | none => { status := 401 }
  | some uid => { status := 200, resp := quotationsByUser uid store }

/-- `GET /quotations/:id` (main server). -/
def quotationGetOneH (ctx : Ctx) (req : Request) (store : Store) : HOut :=
  match getUserFromToken ctx.verify req.auth with
  | none => { status := 401 }
  | some uid =>
    match kvGet store (.quotK uid req.paramId) with
    | some (.qv q) => { status := 200, resp := [.qv q] }
    | _ => { status := 404 }

/-- `PUT /quotations/:id` (main server). -/
def quotationPutH (ctx : Ctx) (req : Request) (store : Store) : HOut :=
  match getUserFromToken ctx.verify req.auth with
  | none => { status := 401 }
  | some uid =>
    match kvGet store (.quotK uid req.paramId) with
    | some (.qv q) =>
      let r := updateQuotationRec uid q req.body ctx.now
      { status := 200, resp := [.qv r], ops := [.setOp (.quotK uid req.paramId) (.qv r)] }
    | _ => { status := 404 }

/-- `DELETE /quotations/:id` (main server). -/
def quotationDeleteH (ctx : Ctx) (req : Request) (_store : Store) : HOut :=
  match getUserFromToken ctx.verify req.auth with
  | none => { status := 401 }
  | some uid => { status := 200, ops := [.delOp (.quotK uid req.paramId)] }

/-- `POST /invoices` (main server). -/
def invoicesPostH (ctx : Ctx) (req : Request) (store : Store) : HOut :=
  match getUserFromToken ctx.verify req.auth with
  | none => { status := 401 }
  | some uid =>
    let count := (invoicesByUser uid store).length
    let inv := createInvoiceRec uid ctx req.body count
    { status := 200, resp := [.iv inv], ops := [.setOp (.invK uid inv.id) (.iv inv)] }

/-- `GET /invoices` (main server). -/
def invoicesGetH (ctx : Ctx) (req : Request) (store : Store) : HOut :=
  match getUserFromToken ctx.verify req.auth with
  | none => { status := 401 }
  | some uid => { status := 200, resp := invoicesByUser uid store }

/-- `GET /invoices/:id` (main server). -/
def invoiceGetOneH (ctx : Ctx) (req : Request) (store : Store) : HOut :=
  match getUserFromToken ctx.verify req.auth with
  | none => { status := 401 }
  | some uid =>
    match kvGet store (.invK uid req.paramId) with
    | some (.iv i) => { status := 200, resp := [.iv i] }
    | _ => { status := 404 }

/-- `PUT /invoices/:id` (main server). -/
def invoicePutH (ctx : Ctx) (req : Request) (store : Store) : HOut :=
  match getUserFromToken ctx.verify req.auth with
  | none => { status := 401 }
  | some uid =>
    match kvGet store (.invK uid req.paramId) with
    | some (.iv i) =>
      let r := updateInvoiceRec uid i req.body ctx.now
      { status := 200, resp := [.iv r], ops := [.setOp (.invK uid req.paramId) (.iv r)] }
    | _ => { status := 404 }

/-- `DELETE /invoices/:id` (main server). -/
def invoiceDeleteH (ctx : Ctx) (req : Request) (_store : Store) : HOut :=
  match getUserFromToken ctx.verify req.auth with
  | none => { status := 401 }
  | some uid => { status := 200, ops := [.delOp (.invK uid req.paramId)] }

/-- `POST /quotations/:id/convert-to-invoice` (main server): creates the
invoice, then rewrites the quotation as accepted unless it already is. -/
def convertH (ctx : Ctx) (req : Request) (store : Store) : HOut :=
  match getUserFromToken ctx.verify req.auth with
  | none => { status := 401 }
  | some uid =>
    match kvGet store (.quotK uid req.paramId) with
    | some (.qv q) =>
      let count := (invoicesByUser uid store).length
      let inv := convInvoiceRec uid ctx q count
      let q2 : QuotationRec :=
        { q with status := "accepted", invoiceId := some inv.id, updatedAt := ctx.now }
      let qOps : List KvOp :=
        if q.status = "accepted" then []
        else [.setOp (.quotK uid req.paramId) (.qv q2)]
      { status := 200, resp := [.iv inv],
        ops := .setOp (.invK uid inv.id) (.iv inv) :: qOps }
    | _ => { status := 404 }

/-- The authenticated endpoints of the main server (every route other than
`GET /health` and `POST /signup`). -/
inductive AuthedEndpoint where
  | profileGet
  | profilePut
  | quotationsPost
  | quotationsGet
  | quotationGetOne
  | quotationPut
  | quotationDelete
  | invoicesPost
  | invoicesGet
  | invoiceGetOne
  | invoicePut
  | invoiceDelete
  | convertPost
deriving DecidableEq

/-- Routing of the main server for its authenticated endpoints. -/
def part000Handle : AuthedEndpoint → Ctx → Request → Store → HOut
  | .profileGet => profileGetH
  | .profilePut => profilePutH
  | .quotationsPost => quotationsPostH
  | .quotationsGet => quotationsGetH
  | .quotationGetOne => quotationGetOneH
  | .quotationPut => quotationPutH
  | .quotationDelete => quotationDeleteH
  | .invoicesPost => invoicesPostH
  | .invoicesGet => invoicesGetH
  | .invoiceGetOne => invoiceGetOneH
  | .invoicePut => invoicePutH
  | .invoiceDelete => invoiceDeleteH
  | .convertPost => convertH

/-- The quotation object stored by the historical server variant
(`src/supabase/functions/server/index.tsx`, `POST /quotations`): keyed by
the body `userId`, id from `crypto.randomUUID()`, and no quotation
number. -/
def legacyCreateQuotationRec (uid : String) (ctx : Ctx) (b : ReqBody) : QuotationRec :=
  { id := ctx.uuid
    quotationNumber := none
    userId := uid
    clientName := b.clientName
    clientAddress := b.clientAddress
    description := b.description
    price := b.price
    vatPercentage := b.vatPercentage
    status := jsOrStr b.status "draft"
    date := b.date.getD ctx.now
    lineItems := none
    invoiceId := none
    createdAt := ctx.now
    updatedAt := ctx.now }

/-- `POST /quotations` of the historical variant: no bearer-token check at
all; the caller is whoever the body's `userId` says. -/
def legacyQuotationsPostH (ctx : Ctx) (req : Request) (_store : Store) : HOut :=
  match req.body.userId with
  | none => { status := 400 }
  | some uid =>
    if uid = "" then { status := 400 }
    else
      let q := legacyCreateQuotationRec uid ctx req.body
      { status := 200, resp := [.qv q], ops := [.setOp (.quotK uid q.id) (.qv q)] }

/-- The merge performed by `PUT /quotations/:id` of the historical variant:
`{...current, ...updates, updatedAt}` with no field pinned, so the payload
may overwrite `id`, `quotationNumber` and `userId`. -/
def legacyUpdateQuotationRec (cur : QuotationRec) (u : ReqBody) (now : Int) :
    QuotationRec :=
  { id := u.id.getD cur.id
    quotationNumber := u.quotationNumber.or cur.quotationNumber
    userId := u.userId.getD cur.userId
    clientName := u.clientName.or cur.clientName
    clientAddress := u.clientAddress.or cur.clientAddress
    description := u.description.or cur.description
    price := u.price.or cur.price
    vatPercentage := u.vatPercentage.or cur.vatPercentage
    status := u.status.getD cur.status
    date := u.date.getD cur.date
    lineItems := u.lineItems.or cur.lineItems
    invoiceId := u.invoiceId.or cur.invoiceId
    createdAt := u.createdAt.getD cur.createdAt
    updatedAt := now }

/-- `PUT /quotations/:id` of the historical variant (caller identified by
the `userId` query parameter, again without a bearer token). -/
def legacyQuotationPutH (ctx : Ctx) (req : Request) (store : Store) : HOut :=
  match req.queryUserId with
  | none => { status := 400 }
  | some uid =>
    if uid = "" then { status := 400 }
    else
      match kvGet store (.quotK uid req.paramId) with
      | some (.qv q) =>
        let r := legacyUpdateQuotationRec q req.body ctx.now
        { status := 200, resp := [.qv r], ops := [.setOp (.quotK uid req.paramId) (.qv r)] }
      | _ => { status := 404 }

/-- The overdue recomputation done by `fetchInvoices` in the invoice list
(InvoicesList): an invoice fetched with status `sent` and a due date
strictly before now is displayed as `overdue`; nothing else changes and
nothing is written back. -/
def processInvoice (today : Int) (inv : InvoiceRec) : InvoiceRec :=
  if inv.status = "sent" then
    match inv.dueDate with
    | some d => if d < today then { inv with status := "overdue" } else inv
    | none => inv
  else inv

/-- The displayed invoice list is the fetched list mapped through
`processInvoice`. -/
def fetchInvoicesDisplay (today : Int) (fetched : List InvoiceRec) : List InvoiceRec :=
  fetched.map (processInvoice today)

/-- Concrete conversion scenario: one stored quotation without a
`lineItems` field (the shape the create handler writes), owned by `u1`. -/
def quotC1 : QuotationRec :=
  { id := "q1", quotationNumber := some "OFF-1700000000000", userId := "u1",
    clientName := some "Acme BV", clientAddress := some "Dam 1", status := "draft" }

/-- Context for the conversion scenario: the token `tok` resolves to `u1`. -/
def ctxC1 : Ctx :=
  { verify := fun t => if t = "tok" then some "u1" else none, now := 1700000000000,
    year := 2025, uuid := "" }

/-- Request for the conversion scenario. -/
def reqC1 : Request :=
  { auth := some "Bearer tok", paramId := "q1" }

/-- Store for the conversion scenario. -/
def storeC1 : Store :=
  [(Key.quotK "u1" "q1", KvValue.qv quotC1)]

/-- Context whose verifier accepts no token, for the C2 scenarios. -/
def ctxC2 : Ctx :=
  { verify := fun _ => none, now := 0, year := 2025, uuid := "uuid-1" }

/-- Stored quotation for the C7 scenarios. -/
def quotC7 : QuotationRec :=
  { id := "q1", quotationNumber := some "OFF-1", userId := "u1" }

/-- Stored invoice for the C7 scenarios. -/
def invC7 : InvoiceRec :=
  { id := "i1", invoiceNumber := "FAC-2025-0001", userId := "u1" }

/-- A hostile update payload that tries to replace the identity fields. -/
def updC7 : ReqBody :=
  { quotationNumber := some "OFF-FORGED", invoiceNumber := some "FAC-FORGED",
    id := some "other", userId := some "evil" }

/-- A stored invoice with status `sent`, due at time 10, for the C8
witness. -/
def invC8 : InvoiceRec :=
  { id := "i1", invoiceNumber := "FAC-2025-0001", userId := "u1",
    status := "sent", dueDate := some 10 }

/-! Algebraic facts about the totals model. -/

theorem foldl_add_shift (f : LineItem → ℚ) :
    ∀ (items : List LineItem) (s : ℚ),
      items.foldl (fun a i => a + f i) s = s + (items.map f).sum
  | [], s => by simp
  | i :: t, s => by
    simp only [List.foldl_cons, List.map_cons, List.sum_cons]
    rw [foldl_add_shift f t (s + f i)]
    ring

theorem sumValues_vatMapAdd (m : List (String × ℚ)) (k : String) (v : ℚ) :
    sumValues (vatMapAdd m k v) = sumValues m + v := by
  induction m with
  | nil => simp [vatMapAdd, sumValues]
  | cons p t ih =>
    obtain ⟨k1, v1⟩ := p
    by_cases h : k1 = k
    · simp [vatMapAdd, h, sumValues]
      ring
    · simp only [vatMapAdd, h, if_false, sumValues, List.map_cons, List.sum_cons] at ih ⊢
      rw [ih]
      ring

theorem sumValues_foldl_vatMapAdd :
    ∀ (items : List LineItem) (m : List (String × ℚ)),
      sumValues (items.foldl
        (fun m item => vatMapAdd m item.vatPercentage (getLineItemVat item)) m)
      = sumValues m + (items.map getLineItemVat).sum
  | [], m => by simp
  | i :: t, m => by
    simp only [List.foldl_cons, List.map_cons, List.sum_cons]
    rw [sumValues_foldl_vatMapAdd t, sumValues_vatMapAdd]
    ring

theorem listLookup_vatMapAdd_self (m : List (String × ℚ)) (k : String) (v : ℚ) :
    listLookup k (vatMapAdd m k v) = some ((listLookup k m).getD 0 + v) := by
  induction m with
  | nil => simp [vatMapAdd, listLookup]
  | cons p t ih =>
    obtain ⟨k1, v1⟩ := p
    by_cases h : k1 = k
    · subst h
      simp [vatMapAdd, listLookup]
    · simp [vatMapAdd, h, listLookup, ih]

theorem listLookup_vatMapAdd_other (m : List (String × ℚ)) (k r : String) (v : ℚ)
    (h : r ≠ k) : listLookup r (vatMapAdd m k v) = listLookup r m := by
  induction m with
  | nil => simp [vatMapAdd, listLookup, Ne.symm h]
  | cons p t ih =>
    obtain ⟨k1, v1⟩ := p
    by_cases h1 : k1 = k
    · subst h1
      simp [vatMapAdd, listLookup, Ne.symm h]
    · simp only [vatMapAdd, h1, if_false]
      by_cases h2 : k1 = r
      · simp [listLookup, h2]
      · simp [listLookup, h2, ih]

theorem listLookup_foldl_vatMapAdd :
    ∀ (items : List LineItem) (m : List (String × ℚ)) (r : String),
      listLookup r (items.foldl
        (fun m item => vatMapAdd m item.vatPercentage (getLineItemVat item)) m)
      = match listLookup r m with
        | some v => some (v + vatSum r items)
        | none =>
          if items.any (fun i => i.vatPercentage = r) then some (vatSum r items)
          else none
  | [], m, r => by
    cases h : listLookup r m <;> simp [vatSum, h]
  | i :: t, m, r => by
    simp only [List.foldl_cons]
    rw [listLookup_foldl_vatMapAdd t]
    by_cases hik : i.vatPercentage = r
    · rw [hik, listLookup_vatMapAdd_self]
      cases h : listLookup r m with
      | none =>
        simp [h, vatSum, hik, List.filter_cons, add_assoc]
      | some v =>
        simp [h, vatSum, hik, List.filter_cons, add_assoc]
    · rw [listLookup_vatMapAdd_other m _ _ _ (fun hh => hik hh.symm)]
      cases h : listLookup r m with
      | none =>
        simp [h, vatSum, hik, List.filter_cons, List.any_cons]
      | some v =>
        simp [h, vatSum, hik, List.filter_cons]

theorem mapFst_vatMapAdd (m : List (String × ℚ)) (k : String) (v : ℚ) :
    (vatMapAdd m k v).map Prod.fst =
      if k ∈ m.map Prod.fst then m.map Prod.fst else m.map Prod.fst ++ [k] := by
  induction m with
  | nil => simp [vatMapAdd]
  | cons p t ih =>
    obtain ⟨k1, v1⟩ := p
    by_cases h : k1 = k
    · subst h
      simp [vatMapAdd]
    · by_cases h2 : k ∈ t.map Prod.fst <;>
        simp [vatMapAdd, h, ih, h2, Ne.symm h]

theorem mapFst_foldl_vatMapAdd :
    ∀ (items : List LineItem) (m : List (String × ℚ)),
      (items.foldl
        (fun m item => vatMapAdd m item.vatPercentage (getLineItemVat item)) m).map
          Prod.fst
      = items.foldl
          (fun acc i => if i.vatPercentage ∈ acc then acc else acc ++ [i.vatPercentage])
          (m.map Prod.fst)
  | [], m => by simp
  | i :: t, m => by
    simp only [List.foldl_cons]
    rw [mapFst_foldl_vatMapAdd t, mapFst_vatMapAdd]

theorem perm_insNum (x : String × ℚ) (l : List (String × ℚ)) :
    (insNum x l).Perm (x :: l) := by
  induction l with
  | nil => simp [insNum]
  | cons y t ih =>
    by_cases h : keyNum x < keyNum y
    · simp [insNum, h]
    · simp only [insNum, h, if_false]
      exact (ih.cons y).trans (List.Perm.swap x y t)

theorem perm_sortNum (l : List (String × ℚ)) : (sortNum l).Perm l := by
  induction l with
  | nil => simp [sortNum]
  | cons x t ih =>
    have : sortNum (x :: t) = insNum x (sortNum t) := rfl
    rw [this]
    exact (perm_insNum x (sortNum t)).trans (ih.cons x)

theorem pairwise_insNum (x : String × ℚ) (l : List (String × ℚ))
    (h : l.Pairwise (fun a b => keyNum a ≤ keyNum b)) :
    (insNum x l).Pairwise (fun a b => keyNum a ≤ keyNum b) := by
  induction l with
  | nil => simp [insNum]
  | cons y t ih =>
    rcases List.pairwise_cons.mp h with ⟨hy, ht⟩
    by_cases hxy : keyNum x < keyNum y
    · simp only [insNum, hxy, if_true]
      refine List.pairwise_cons.mpr ⟨?_, h⟩
      intro z hz
      rcases List.mem_cons.mp hz with rfl | hz2
      · exact le_of_lt hxy
      · exact le_trans (le_of_lt hxy) (hy z hz2)
    · simp only [insNum, hxy, if_false]
      refine List.pairwise_cons.mpr ⟨?_, ih ht⟩
      intro z hz
      have hz2 := (perm_insNum x t).mem_iff.mp hz
      rcases List.mem_cons.mp hz2 with rfl | hz3
      · exact Nat.le_of_not_lt hxy
      · exact hy z hz3

theorem pairwise_sortNum (l : List (String × ℚ)) :
    (sortNum l).Pairwise (fun a b => keyNum a ≤ keyNum b) := by
  induction l with
  | nil => simp [sortNum]
  | cons x t ih => exact pairwise_insNum x (sortNum t) ih

theorem perm_jsEntries (m : List (String × ℚ)) : (jsEntries m).Perm m := by
  unfold jsEntries
  have h1 := perm_sortNum (m.filter (fun p => (canonIndex p.1).isSome))
  have h2 := h1.append_right (m.filter (fun p => !(canonIndex p.1).isSome))
  exact h2.trans (List.filter_append_perm _ m)

theorem isDigitCh_digitCh (d : Nat) (h : d < 10) : isDigitCh (digitCh d) = true := by
  interval_cases d <;> decide

theorem decCharsAux_all_digits :
    ∀ (fuel n : Nat), (decCharsAux fuel n).all isDigitCh = true
  | 0, _ => by simp [decCharsAux]
  | fuel + 1, n => by
    by_cases h : n = 0
    · simp [decCharsAux, h]
    · simp only [decCharsAux, h, if_false, List.all_append]
      rw [decCharsAux_all_digits fuel (n / 10), Bool.true_and]
      simp [isDigitCh_digitCh (n % 10) (Nat.mod_lt n (by norm_num))]

theorem decChars_all_digits (n : Nat) : (decChars n).all isDigitCh = true := by
  by_cases h : n = 0
  · simp [decChars, h]
    decide
  · simp only [decChars, h, if_false]
    exact decCharsAux_all_digits (n + 1) n

theorem decCharsAux_ne_nil (fuel n : Nat) (hn : n ≠ 0) (hf : fuel ≠ 0) :
    decCharsAux fuel n ≠ [] := by
  match fuel with
  | 0 => exact absurd rfl hf
  | fuel + 1 =>
    simp [decCharsAux, hn]

theorem decChars_ne_nil (n : Nat) : decChars n ≠ [] := by
  by_cases h : n = 0
  · simp [decChars, h]
  · simp only [decChars, h, if_false]
    exact decCharsAux_ne_nil (n + 1) n h (by omega)

theorem decCharsAux_length_le :
    ∀ (fuel n k : Nat), n < 10 ^ k → (decCharsAux fuel n).length ≤ k
  | 0, n, k, _ => by simp [decCharsAux]
  | fuel + 1, n, k, hn => by
    by_cases h : n = 0
    · simp [decCharsAux, h]
    · have hk0 : k ≠ 0 := by
        rintro rfl
        simp at hn
        omega
      obtain ⟨k1, rfl⟩ : ∃ k1, k = k1 + 1 := ⟨k - 1, by omega⟩
      have hdiv : n / 10 < 10 ^ k1 := by
        rw [Nat.div_lt_iff_lt_mul (by norm_num)]
        calc n < 10 ^ (k1 + 1) := hn
        _ = 10 ^ k1 * 10 := by ring
      simp only [decCharsAux, h, if_false, List.length_append, List.length_cons,
        List.length_nil]
      have := decCharsAux_length_le fuel (n / 10) k1 hdiv
      omega

theorem decCharsAux_length_ge :
    ∀ (fuel k n : Nat), 10 ^ k ≤ n → k < fuel → k + 1 ≤ (decCharsAux fuel n).length
  | 0, k, n, _, hf => by omega
  | fuel + 1, k, n, hn, hf => by
    have h0 : n ≠ 0 := by
      have : 1 ≤ 10 ^ k := Nat.one_le_pow k 10 (by norm_num)
      omega
    simp only [decCharsAux, h0, if_false, List.length_append, List.length_cons,
      List.length_nil]
    match k with
    | 0 => omega
    | k1 + 1 =>
      have hdiv : 10 ^ k1 ≤ n / 10 := by
        rw [Nat.le_div_iff_mul_le (by norm_num)]
        calc 10 ^ k1 * 10 = 10 ^ (k1 + 1) := by ring
        _ ≤ n := hn
      have := decCharsAux_length_ge fuel k1 (n / 10) hdiv (by omega)
      omega

theorem decChars_length_four (n : Nat) (h1 : 1000 ≤ n) (h2 : n ≤ 9999) :
    (decChars n).length = 4 := by
  have hne : n ≠ 0 := by omega
  simp only [decChars, hne, if_false]
  have p4 : (10 : Nat) ^ 4 = 10000 := by norm_num
  have p3 : (10 : Nat) ^ 3 = 1000 := by norm_num
  have hle := decCharsAux_length_le (n + 1) n 4 (by omega)
  have hge := decCharsAux_length_ge (n + 1) 3 n (by omega) (by omega)
  omega

theorem decChars_length_le_four (n : Nat) (h : n ≤ 9999) :
    (decChars n).length ≤ 4 := by
  by_cases hne : n = 0
  · simp [decChars, hne]
  · simp only [decChars, hne, if_false]
    have p4 : (10 : Nat) ^ 4 = 10000 := by norm_num
    exact decCharsAux_length_le (n + 1) n 4 (by omega)

theorem padStart4_length (l : List Char) (h : l.length ≤ 4) :
    (padStart4 l).length = 4 := by
  simp [padStart4]
  omega

theorem padStart4_all_digits (l : List Char) (h : l.all isDigitCh = true) :
    (padStart4 l).all isDigitCh = true := by
  have h0 : (List.replicate (4 - l.length) '0').all isDigitCh = true := by
    rw [List.all_eq_true]
    intro c hc
    rw [List.eq_of_mem_replicate hc]
    decide
  simp [padStart4, List.all_append, h0, h]

theorem matchesOFF_quotationNumberGen (timestamp : Nat) :
    matchesOFF (quotationNumberGen timestamp) = true := by
  have hdata : (quotationNumberGen timestamp).data
      = 'O' :: 'F' :: 'F' :: '-' :: decChars timestamp := rfl
  simp only [matchesOFF, hdata]
  rw [decChars_all_digits timestamp, Bool.and_true]
  simp [List.isEmpty_iff, decChars_ne_nil timestamp]

theorem matchesFAC_of_parts (y c : List Char)
    (hy4 : y.length = 4) (hc4 : c.length = 4)
    (hyd : y.all isDigitCh = true) (hcd : c.all isDigitCh = true) :
    matchesFAC (String.mk ('F' :: 'A' :: 'C' :: '-' :: (y ++ '-' :: c))) = true := by
  rcases y with _ | ⟨a1, _ | ⟨a2, _ | ⟨a3, _ | ⟨a4, _ | ⟨a5, yr⟩⟩⟩⟩⟩ <;>
    simp_all
  rcases c with _ | ⟨b1, _ | ⟨b2, _ | ⟨b3, _ | ⟨b4, _ | ⟨b5, cr⟩⟩⟩⟩⟩ <;>
    simp_all [matchesFAC, isDigitCh]

theorem invoiceNumberGen_data (year count : Nat) :
    (invoiceNumberGen year count).data
      = 'F' :: 'A' :: 'C' :: '-' :: (decChars year ++ '-' :: padStart4 (decChars (count + 1))) := by
  show (('F' :: 'A' :: 'C' :: '-' :: decChars year) ++ ['-'])
      ++ padStart4 (decChars (count + 1))
    = 'F' :: 'A' :: 'C' :: '-' :: (decChars year ++ '-' :: padStart4 (decChars (count + 1)))
  simp

theorem matchesFAC_invoiceNumberGen (year count : Nat)
    (hy1 : 1000 ≤ year) (hy2 : year ≤ 9999) (hc : count + 1 ≤ 9999) :
    matchesFAC (invoiceNumberGen year count) = true := by
  have h1 : matchesFAC (String.mk ('F' :: 'A' :: 'C' :: '-' ::
      (decChars year ++ '-' :: padStart4 (decChars (count + 1))))) = true := by
    refine matchesFAC_of_parts _ _ ?_ ?_ ?_ ?_
    · exact decChars_length_four year hy1 hy2
    · exact padStart4_length _ (decChars_length_le_four (count + 1) hc)
    · exact decChars_all_digits year
    · exact padStart4_all_digits _ (decChars_all_digits (count + 1))
  have h2 : invoiceNumberGen year count
      = String.mk ('F' :: 'A' :: 'C' :: '-' ::
          (decChars year ++ '-' :: padStart4 (decChars (count + 1)))) := by
    have := invoiceNumberGen_data year count
    cases hgen : invoiceNumberGen year count
    rw [hgen] at this
    simp at this
    rw [this]
  rw [h2, h1]

theorem kvGet_kvSet_self (s : Store) (k : Key) (v : KvValue) :
    kvGet (kvSet s k v) k = some v := by
  induction s with
  | nil => simp [kvSet, kvGet]
  | cons p t ih =>
    obtain ⟨k1, v1⟩ := p
    by_cases h : k1 = k
    · simp [kvSet, h, kvGet]
    · simp [kvSet, h, kvGet, ih]

theorem kvGet_kvSet_other (s : Store) (k k2 : Key) (v : KvValue) (h : k2 ≠ k) :
    kvGet (kvSet s k v) k2 = kvGet s k2 := by
  induction s with
  | nil => simp [kvSet, kvGet, Ne.symm h]
  | cons p t ih =>
    obtain ⟨k1, v1⟩ := p
    by_cases h1 : k1 = k
    · subst h1
      simp [kvSet, kvGet, Ne.symm h]
    · by_cases h2 : k1 = k2 <;> simp [kvSet, h1, kvGet, h2, h, ih]

/-! Claim theorems. -/

theorem jsOrQ_zero (v : Option ℚ) : jsOrQ v 0 = v.getD 0 := by
  cases v with
  | none => rfl
  | some x => by_cases h : x = 0 <;> simp [jsOrQ, h]

/-- Claim C3, counterexample: on the line item with unit price `"100"` and
non-numeric quantity `"x"`, the form components compute a line total of 0,
while the claim (quantity treated as 1) demands 100. -/
theorem lineItemTotal_quantity_default_cx :
    getLineItemTotal { unitPrice := "100", quantity := "x", vatPercentage := "21" } = 0 ∧
    lineTotalSpec { unitPrice := "100", quantity := "x", vatPercentage := "21" } = 100 ∧
    getLineItemTotal { unitPrice := "100", quantity := "x", vatPercentage := "21" }
      ≠ lineTotalSpec { unitPrice := "100", quantity := "x", vatPercentage := "21" } := by
  have h1 : getLineItemTotal
      { unitPrice := "100", quantity := "x", vatPercentage := "21" } = 0 := by
    simp [getLineItemTotal, jsOrQ, parseFloatQ, isDigitCh, digitsVal]
  have h2 : lineTotalSpec
      { unitPrice := "100", quantity := "x", vatPercentage := "21" } = 100 := by
    simp [lineTotalSpec, parseFloatQ, isDigitCh, digitsVal] <;> norm_num
  refine ⟨h1, h2, ?_⟩
  rw [h1, h2]
  norm_num

/-- Claim C3, amended: the form components compute
`(parseFloat(price) || 0) * (parseFloat(qty) || 0)`, so a missing or
non-numeric quantity is treated as 0 (not 1) and a missing or non-numeric
price as 0; the PDF exporter instead defaults the quantity to 1 (also when
it parses to 0).  No error is raised: both are total functions. -/
theorem lineItemTotal_defaults (item : LineItem) :
    getLineItemTotal item
      = (parseFloatQ item.unitPrice).getD 0 * (parseFloatQ item.quantity).getD 0 ∧
    pdfItemTotal item
      = (parseFloatQ item.unitPrice).getD 0 * jsOrQ (parseFloatQ item.quantity) 1 := by
  constructor
  · rw [getLineItemTotal, jsOrQ_zero, jsOrQ_zero]
  · rw [pdfItemTotal, jsOrQ_zero]

/-- Claim C9: for a line item whose unit price or quantity does not parse,
`getLineItemTotal` and `getLineItemVat` both return 0 (and, being total
functions of the model, never raise). -/
theorem lineItem_nonnumeric_yields_zero (item : LineItem)
    (h : parseFloatQ item.unitPrice = none ∨ parseFloatQ item.quantity = none) :
    getLineItemTotal item = 0 ∧ getLineItemVat item = 0 := by
  have ht : getLineItemTotal item = 0 := by
    rcases h with h | h <;> simp [getLineItemTotal, h, jsOrQ]
  exact ⟨ht, by simp [getLineItemVat, ht]⟩

/-- Claim C9, witness: the evaluation at the concrete item with price
`"abc"`. -/
theorem lineItem_nonnumeric_yields_zero_witness :
    parseFloatQ "abc" = none ∧
    getLineItemTotal ({ unitPrice := "abc", quantity := "2" } : LineItem) = 0 ∧
    getLineItemVat ({ unitPrice := "abc", quantity := "2" } : LineItem) = 0 := by
  have hn : parseFloatQ "abc" = none := by
    simp [parseFloatQ, isDigitCh]
  have h := lineItem_nonnumeric_yields_zero
    ({ unitPrice := "abc", quantity := "2" } : LineItem) (Or.inl hn)
  exact ⟨hn, h.1, h.2⟩

/-- Claim C4: for every list of line items, the subtotal plus the sum of
the per-rate VAT amounts of `getVatTotals` is exactly the grand total (the
rational model realises the floating-point tolerance exactly). -/
theorem subtotal_add_vatByRate_eq_grandTotal (items : List LineItem) :
    getSubtotal items + sumValues (getVatTotals items) = getGrandTotal items := by
  have h1 : sumValues (getVatTotals items) = (items.map getLineItemVat).sum := by
    have := sumValues_foldl_vatMapAdd items []
    simpa [getVatTotals, sumValues] using this
  have h2 : getTotalVat items = (items.map getLineItemVat).sum := by
    have := foldl_add_shift getLineItemVat items 0
    simpa [getTotalVat] using this
  rw [getGrandTotal, h1, h2]

/-- Claim C5, counterexample: with the rates encountered in the order
`"21"`, `"9"`, the map is built in insertion order `21, 9`, but
`Object.entries` enumerates the integer-like keys in ascending numeric
order, yielding `9, 21`. -/
theorem vatTotals_entries_order_cx :
    jsEntries (getVatTotals
        [{ unitPrice := "100", quantity := "1", vatPercentage := "21" },
         { unitPrice := "100", quantity := "1", vatPercentage := "9" }])
      ≠ getVatTotals
        [{ unitPrice := "100", quantity := "1", vatPercentage := "21" },
         { unitPrice := "100", quantity := "1", vatPercentage := "9" }] := by
  simp [getVatTotals, vatMapAdd, jsEntries, sortNum, insNum, keyNum, canonIndex,
    digitsVal, isDigitCh]

/-- Claim C5, amended: `getVatTotals` does map each distinct rate string to
the summed VAT amount of the items sharing that rate, and the map itself is
built in insertion order of first occurrence; but enumerating it
(`Object.entries`) yields the array-index-like rate keys first, in
ascending numeric order, followed by the remaining keys in insertion
order — the entries are a permutation of the map, not the insertion
order itself. -/
theorem vatTotals_mapping_and_entries_order (items : List LineItem) (r : String) :
    listLookup r (getVatTotals items)
      = (if items.any (fun i => i.vatPercentage = r) then some (vatSum r items)
         else none) ∧
    (getVatTotals items).map Prod.fst
      = firstOccurrences (items.map (fun i => i.vatPercentage)) ∧
    (jsEntries (getVatTotals items)).Perm (getVatTotals items) ∧
    (jsEntries (getVatTotals items)).filter (fun p => !(canonIndex p.1).isSome)
      = (getVatTotals items).filter (fun p => !(canonIndex p.1).isSome) ∧
    (sortNum ((getVatTotals items).filter (fun p => (canonIndex p.1).isSome))).Pairwise
      (fun a b => keyNum a ≤ keyNum b) := by
  refine ⟨?_, ?_, perm_jsEntries _, ?_, pairwise_sortNum _⟩
  · have := listLookup_foldl_vatMapAdd items [] r
    simpa [getVatTotals, listLookup] using this
  · have := mapFst_foldl_vatMapAdd items []
    rw [getVatTotals]
    rw [this]
    simp [firstOccurrences, List.foldl_map]
  · unfold jsEntries
    rw [List.filter_append]
    have h1 : (sortNum ((getVatTotals items).filter
        (fun p => (canonIndex p.1).isSome))).filter
          (fun p => !(canonIndex p.1).isSome) = [] := by
      rw [List.filter_eq_nil_iff]
      intro a ha
      have hmem := (perm_sortNum _).mem_iff.mp ha
      have h2 := List.of_mem_filter hmem
      simp only [Bool.not_eq_true]
      simp [h2]
    rw [h1, List.filter_filter]
    simp

/-- Claim C6, counterexample: once a user already has 9999 stored invoices,
the next generated number is `FAC-<year>-10000`, whose counter has five
digits and therefore does not match the claimed
`FAC-<4-digit year>-<4-digit zero-padded counter>` pattern. -/
theorem invoice_number_pattern_cx :
    invoiceNumberGen 2025 9999 = "FAC-2025-10000" ∧
    matchesFAC (invoiceNumberGen 2025 9999) = false := by
  constructor <;> decide

/-- Claim C6, amended: every generated quotation number matches
`OFF-<digits>`; a generated invoice number is
`FAC-<year>-<counter zero-padded to at least four digits>`, and it matches
the claimed exactly-four-digit pattern whenever the year has four digits
and the user's existing invoice count is at most 9998 (counter at most
9999).  The create handlers store exactly these generated numbers. -/
theorem sequence_number_patterns :
    (∀ ts : Nat, matchesOFF (quotationNumberGen ts) = true) ∧
    (∀ year count : Nat, 1000 ≤ year → year ≤ 9999 → count + 1 ≤ 9999 →
      matchesFAC (invoiceNumberGen year count) = true) ∧
    (∀ (uid : String) (ctx : Ctx) (b : ReqBody),
      (createQuotationRec uid ctx b).quotationNumber
        = some (quotationNumberGen ctx.now.toNat)) ∧
    (∀ (uid : String) (ctx : Ctx) (b : ReqBody) (count : Nat),
      (createInvoiceRec uid ctx b count).invoiceNumber
        = invoiceNumberGen ctx.year count) ∧
    (∀ (uid : String) (ctx : Ctx) (q : QuotationRec) (count : Nat),
      (convInvoiceRec uid ctx q count).invoiceNumber
        = invoiceNumberGen ctx.year count) :=
  ⟨matchesOFF_quotationNumberGen,
   fun year count h1 h2 h3 => matchesFAC_invoiceNumberGen year count h1 h2 h3,
   fun _ _ _ => rfl, fun _ _ _ _ => rfl, fun _ _ _ _ => rfl⟩

/-- Claim C6, witness: a timestamp-sized quotation number and an invoice
number for the 42nd invoice of 2025. -/
theorem sequence_number_patterns_witness :
    matchesOFF (quotationNumberGen 1739999999999) = true ∧
    matchesFAC (invoiceNumberGen 2025 41) = true :=
  ⟨sequence_number_patterns.1 1739999999999,
   sequence_number_patterns.2.1 2025 41 (by norm_num) (by norm_num) (by norm_num)⟩

/-- Claim C1, amended: for a stored quotation of the authenticated user,
the convert operation answers 200 with an invoice that copies client name,
client address and VAT rate verbatim, copies the line items when the
quotation has any and otherwise stores the empty list, has status `sent`
and a due date exactly 30 days after the conversion time; the invoice is
stored, and the quotation is rewritten with status `accepted` and an
`invoiceId` back-reference unless its status is already `accepted`, in
which case it is left untouched. -/
theorem convert_to_invoice_spec (ctx : Ctx) (req : Request) (store : Store)
    (uid : String) (q : QuotationRec) (inv : InvoiceRec)
    (hauth : getUserFromToken ctx.verify req.auth = some uid)
    (hq : kvGet store (Key.quotK uid req.paramId) = some (.qv q))
    (hinv : inv = convInvoiceRec uid ctx q (invoicesByUser uid store).length) :
    (convertH ctx req store).status = 200 ∧
    (convertH ctx req store).resp = [.iv inv] ∧
    inv.clientName = q.clientName ∧
    inv.clientAddress = q.clientAddress ∧
    inv.vatPercentage = q.vatPercentage ∧
    inv.lineItems = q.lineItems.getD [] ∧
    inv.status = "sent" ∧
    inv.dueDate = some (ctx.now + 30 * 86400000) ∧
    kvGet (applyOps store (convertH ctx req store).ops) (Key.invK uid inv.id)
      = some (.iv inv) ∧
    (q.status = "accepted" →
      kvGet (applyOps store (convertH ctx req store).ops) (Key.quotK uid req.paramId)
        = some (.qv q)) ∧
    (q.status ≠ "accepted" →
      kvGet (applyOps store (convertH ctx req store).ops) (Key.quotK uid req.paramId)
        = some (.qv { q with status := "accepted", invoiceId := some inv.id, updatedAt := ctx.now })) := by
  subst hinv
  have hout : convertH ctx req store
      = { status := 200,
          resp := [.iv (convInvoiceRec uid ctx q (invoicesByUser uid store).length)],
          ops := .setOp
              (.invK uid (convInvoiceRec uid ctx q (invoicesByUser uid store).length).id)
              (.iv (convInvoiceRec uid ctx q (invoicesByUser uid store).length)) ::
            (if q.status = "accepted" then []
             else [.setOp (.quotK uid req.paramId)
               (.qv { q with status := "accepted", invoiceId := some (convInvoiceRec uid ctx q (invoicesByUser uid store).length).id, updatedAt := ctx.now })]) } := by
    simp only [convertH, hauth, hq]
  have hkeys : Key.quotK uid req.paramId
      ≠ Key.invK uid (convInvoiceRec uid ctx q (invoicesByUser uid store).length).id := by
    simp
  refine ⟨by rw [hout], by rw [hout], rfl, rfl, rfl, rfl, rfl, rfl, ?_, ?_, ?_⟩
  · rw [hout]
    by_cases hacc : q.status = "accepted"
    · simp only [hacc, if_pos rfl]
      show kvGet (applyOps store _) _ = _
      simp [applyOps, kvGet_kvSet_self]
    · simp only [hacc, if_neg hacc]
      show kvGet (applyOps store _) _ = _
      simp only [applyOps]
      rw [kvGet_kvSet_other _ _ _ _ (Ne.symm hkeys), kvGet_kvSet_self]
  · intro hacc
    rw [hout]
    simp only [hacc, if_pos rfl]
    show kvGet (applyOps store _) _ = _
    simp only [applyOps]
    rw [kvGet_kvSet_other _ _ _ _ hkeys]
    exact hq
  · intro hacc
    rw [hout]
    simp only [if_neg hacc]
    show kvGet (applyOps store _) _ = _
    simp only [applyOps]
    rw [kvGet_kvSet_self]

/-- Claim C1, witness: the conversion scenario evaluated; the quotation has
no line items, there are no stored invoices, so the count is 0. -/
theorem convert_to_invoice_spec_witness :
    (convertH ctxC1 reqC1 storeC1).status = 200 ∧
    (convertH ctxC1 reqC1 storeC1).resp = [.iv (convInvoiceRec "u1" ctxC1 quotC1 0)] ∧
    (convInvoiceRec "u1" ctxC1 quotC1 0).status = "sent" ∧
    (convInvoiceRec "u1" ctxC1 quotC1 0).dueDate
      = some (1700000000000 + 30 * 86400000) := by
  have h := convert_to_invoice_spec ctxC1 reqC1 storeC1 "u1" quotC1
    (convInvoiceRec "u1" ctxC1 quotC1 0) (by decide) (by decide)
    (by show _ = convInvoiceRec "u1" ctxC1 quotC1 ([].length); rfl)
  exact ⟨h.1, h.2.1, h.2.2.2.2.2.2.1, h.2.2.2.2.2.2.2.1⟩

/-- Claim C1, counterexample: converting the stored quotation `quotC1`,
which has no `lineItems` field, produces an invoice whose `lineItems` is
the empty list — not a verbatim copy of the quotation's (absent) line
items, refuting the claim read over every stored quotation. -/
theorem convert_lineItems_verbatim_cx :
    (convertH ctxC1 reqC1 storeC1).resp = [.iv (convInvoiceRec "u1" ctxC1 quotC1 0)] ∧
    (convInvoiceRec "u1" ctxC1 quotC1 0).lineItems = ([] : List LineItem) ∧
    quotC1.lineItems = none ∧
    some (convInvoiceRec "u1" ctxC1 quotC1 0).lineItems ≠ quotC1.lineItems := by
  refine ⟨?_, rfl, rfl, by simp [quotC1]⟩
  show (convertH ctxC1 reqC1 storeC1).resp = _
  simp only [convertH, ctxC1, reqC1, storeC1]
  decide

/-- Claim C2, amended: on the bearer-token server (the Hono app under
`/server`), every endpoint other than `GET /health` and `POST /signup`
answers 401 to a request without an `Authorization` header and executes no
`kv.set` or `kv.del`, leaving the store unchanged; the historical server
variant in `src/supabase/functions/server/index.tsx` does not check bearer
tokens at all (see the counterexample). -/
theorem no_token_rejected_main_server (e : AuthedEndpoint) (ctx : Ctx)
    (req : Request) (store : Store) (h : req.auth = none) :
    part000Handle e ctx req store = { status := 401 } ∧
    (part000Handle e ctx req store).ops = [] ∧
    applyOps store (part000Handle e ctx req store).ops = store := by
  have h401 : part000Handle e ctx req store = { status := 401 } := by
    cases e <;>
      simp [part000Handle, profileGetH, profilePutH, quotationsPostH, quotationsGetH,
        quotationGetOneH, quotationPutH, quotationDeleteH, invoicesPostH, invoicesGetH,
        invoiceGetOneH, invoicePutH, invoiceDeleteH, convertH, getUserFromToken, h]
  refine ⟨h401, ?_, ?_⟩ <;> rw [h401] <;> rfl

/-- Claim C2, witness: a token-less creation request against the main
server is rejected with 401 and the empty store stays empty. -/
theorem no_token_rejected_main_server_witness :
    part000Handle .quotationsPost ctxC2 { auth := none } ([] : Store)
      = { status := 401 } ∧
    applyOps ([] : Store)
      (part000Handle .quotationsPost ctxC2 { auth := none } ([] : Store)).ops
      = ([] : Store) := by
  have h := no_token_rejected_main_server .quotationsPost ctxC2 { auth := none }
    ([] : Store) rfl
  exact ⟨h.1, h.2.2⟩

/-- Claim C2, counterexample: the live `POST /quotations` of the historical
variant performs a `kv.set` and answers 200 for a request that carries no
`Authorization` header at all — only a `userId` field in the body. -/
theorem legacy_post_mutates_without_token_cx :
    ({ auth := none, body := { userId := some "u1" } } : Request).auth = none ∧
    (legacyQuotationsPostH ctxC2
        { auth := none, body := { userId := some "u1" } } ([] : Store)).status = 200 ∧
    (legacyQuotationsPostH ctxC2
        { auth := none, body := { userId := some "u1" } } ([] : Store)).ops
      = [.setOp (.quotK "u1" "uuid-1")
          (.qv (legacyCreateQuotationRec "u1" ctxC2 { userId := some "u1" }))] ∧
    (legacyQuotationsPostH ctxC2
        { auth := none, body := { userId := some "u1" } } ([] : Store)).ops
      ≠ [] := by
  refine ⟨rfl, by decide, by decide, by decide⟩

/-- Claim C7, amended: the main server's update handlers pin `id`, the
sequence number and the owner id to the current record (the owner id is
set to the authenticated caller, which equals the stored owner for records
under the caller's key prefix), whatever the payload supplies; the
historical variant's `PUT /quotations/:id` pins nothing (see the
counterexample). -/
theorem update_preserves_identity_fields (uid : String) (q : QuotationRec)
    (i : InvoiceRec) (u : ReqBody) (now : Int)
    (hq : q.userId = uid) (hi : i.userId = uid) :
    (updateQuotationRec uid q u now).id = q.id ∧
    (updateQuotationRec uid q u now).quotationNumber = q.quotationNumber ∧
    (updateQuotationRec uid q u now).userId = q.userId ∧
    (updateInvoiceRec uid i u now).id = i.id ∧
    (updateInvoiceRec uid i u now).invoiceNumber = i.invoiceNumber ∧
    (updateInvoiceRec uid i u now).userId = i.userId := by
  refine ⟨rfl, rfl, ?_, rfl, rfl, ?_⟩ <;>
    simp [updateQuotationRec, updateInvoiceRec, hq, hi]

/-- Claim C7, witness: the main server's merges ignore the hostile payload
fields. -/
theorem update_preserves_identity_fields_witness :
    (updateQuotationRec "u1" quotC7 updC7 5).id = quotC7.id ∧
    (updateQuotationRec "u1" quotC7 updC7 5).quotationNumber = quotC7.quotationNumber ∧
    (updateQuotationRec "u1" quotC7 updC7 5).userId = quotC7.userId ∧
    (updateInvoiceRec "u1" invC7 updC7 5).id = invC7.id ∧
    (updateInvoiceRec "u1" invC7 updC7 5).invoiceNumber = invC7.invoiceNumber ∧
    (updateInvoiceRec "u1" invC7 updC7 5).userId = invC7.userId :=
  update_preserves_identity_fields "u1" quotC7 invC7 updC7 5 rfl rfl

/-- Claim C7, counterexample: the historical variant's update endpoint lets
the payload overwrite the stored quotation number (and likewise `id` and
`userId`): updating `quotC7` with `updC7` stores `OFF-FORGED`. -/
theorem legacy_update_overwrites_number_cx :
    (legacyQuotationPutH ctxC2
        { queryUserId := some "u1", paramId := "q1", body := updC7 }
        [(Key.quotK "u1" "q1", KvValue.qv quotC7)]).resp
      = [.qv (legacyUpdateQuotationRec quotC7 updC7 0)] ∧
    (legacyUpdateQuotationRec quotC7 updC7 0).quotationNumber = some "OFF-FORGED" ∧
    quotC7.quotationNumber = some "OFF-1" ∧
    (legacyUpdateQuotationRec quotC7 updC7 0).quotationNumber
      ≠ quotC7.quotationNumber := by
  refine ⟨by decide, by decide, rfl, by decide⟩

/-- Claim C8: a fetched invoice with persisted status `sent` and a due date
strictly before now is displayed as `overdue`; every other invoice is
displayed unchanged; and the fetch path performs no storage write — the
list endpoint executes no `kv.set`/`kv.del` and leaves the store as it
was, the recomputation happening only on the fetched copies. -/
theorem overdue_display_only :
    (∀ (today : Int) (inv : InvoiceRec) (d : Int),
      inv.status = "sent" → inv.dueDate = some d → d < today →
      processInvoice today inv = { inv with status := "overdue" }) ∧
    (∀ (today : Int) (inv : InvoiceRec),
      (inv.status ≠ "sent" ∨ ∀ d : Int, inv.dueDate = some d → ¬ d < today) →
      processInvoice today inv = inv) ∧
    (∀ (ctx : Ctx) (req : Request) (store : Store),
      (invoicesGetH ctx req store).ops = [] ∧
      applyOps store (invoicesGetH ctx req store).ops = store) ∧
    (∀ (today : Int) (l : List InvoiceRec),
      fetchInvoicesDisplay today l = l.map (processInvoice today)) := by
  refine ⟨?_, ?_, ?_, fun _ _ => rfl⟩
  · intro today inv d hs hd hlt
    simp [processInvoice, hs, hd, hlt]
  · intro today inv h
    rcases h with h | h
    · simp [processInvoice, h]
    · by_cases hs : inv.status = "sent"
      · cases hd : inv.dueDate with
        | none => simp [processInvoice, hs, hd]
        | some d => simp [processInvoice, hs, hd, h d hd]
      · simp [processInvoice, hs]
  · intro ctx req store
    cases h : getUserFromToken ctx.verify req.auth <;>
      simp [invoicesGetH, h, applyOps]

/-- Claim C8, witness: at time 20 the invoice due at time 10 displays as
`overdue`, a `paid` invoice displays unchanged, and the list endpoint
leaves a concrete store untouched. -/
theorem overdue_display_only_witness :
    processInvoice 20 invC8 = { invC8 with status := "overdue" } ∧
    processInvoice 20 { invC8 with status := "paid" } = { invC8 with status := "paid" } ∧
    applyOps [(Key.invK "u1" "i1", KvValue.iv invC8)]
        (invoicesGetH ctxC2 { auth := none }
          [(Key.invK "u1" "i1", KvValue.iv invC8)]).ops
      = [(Key.invK "u1" "i1", KvValue.iv invC8)] := by
  refine ⟨?_, ?_, ?_⟩
  · exact overdue_display_only.1 20 invC8 10 rfl rfl (by norm_num)
  · exact overdue_display_only.2.1 20 { invC8 with status := "paid" }
      (Or.inl (by simp [invC8]))
  · exact (overdue_display_only.2.2.1 ctxC2 { auth := none }
      [(Key.invK "u1" "i1", KvValue.iv invC8)]).2

/-- Claim C10: the quotation object stored by the main server's create
handler has no `lineItems` field, whatever the request body supplied, and
converting such a freshly created (never updated) quotation yields an
invoice whose `lineItems` is the empty list. -/
theorem created_quotation_has_no_lineItems (uid : String) (ctx ctx2 : Ctx)
    (b : ReqBody) (count : Nat) :
    (createQuotationRec uid ctx b).lineItems = none ∧
    (convInvoiceRec uid ctx2 (createQuotationRec uid ctx b) count).lineItems
      = ([] : List LineItem) ∧
    (quotationsPostH ctx { auth := some "Bearer t", body := b } ([] : Store)).ops
      = (match getUserFromToken ctx.verify (some "Bearer t") with
         | some uid2 => [.setOp (.quotK uid2 (createQuotationRec uid2 ctx b).id)
             (.qv (createQuotationRec uid2 ctx b))]
         | none => []) := by
  refine ⟨rfl, rfl, ?_⟩
  cases h : getUserFromToken ctx.verify (some "Bearer t") <;>
    simp [quotationsPostH, h]
